import Mathlib

/-!
Verification of the spack-stack environment-assembly modules
(`lib/jcsda-emc/spack-stack/stack/stack_env.py` and
`lib/jcsda-emc/spack-stack/stack/container_env.py`).

The YAML documents handled by these modules are embedded as a tagged tree
of scalars, sequences, and mappings (association lists preserving
insertion order, as Python dicts do).  The external primitives of the
package-manager library (the deep-merge `spack.config.merge_yaml`, the
configuration get/set/add API, the version-control hash query, the
filesystem operations) are not part of the two modules under study; they
are modelled from the specification's description of them, as noted in the
doc comment of each such definition.
-/

set_option autoImplicit false

/-- A YAML-like document: scalar leaves, sequences, and mappings given as
insertion-ordered association lists (the comment-preserving YAML objects
used by the code behave as Python dicts with ordered keys). -/
inductive Yaml where
  | scalar : String → Yaml
  | seq : List Yaml → Yaml
  | map : List (String × Yaml) → Yaml

mutual
/-- Structural equality test on YAML documents (Python's `==` on parsed
YAML values, used by the merge primitive's duplicate check). -/
def yamlBeq : Yaml → Yaml → Bool
  | Yaml.scalar a, Yaml.scalar b => a == b
  | Yaml.seq a, Yaml.seq b => yamlSeqBeq a b
  | Yaml.map a, Yaml.map b => yamlMapBeq a b
  | _, _ => false

/-- Structural equality on YAML sequences (helper of `yamlBeq`). -/
def yamlSeqBeq : List Yaml → List Yaml → Bool
  | [], [] => true
  | a :: as, b :: bs => yamlBeq a b && yamlSeqBeq as bs
  | _, _ => false

/-- Structural equality on YAML mappings (helper of `yamlBeq`). -/
def yamlMapBeq : List (String × Yaml) → List (String × Yaml) → Bool
  | [], [] => true
  | a :: as, b :: bs => (a.1 == b.1) && yamlBeq a.2 b.2 && yamlMapBeq as bs
  | _, _ => false
end

/-- Python dict lookup on an association list: the value of the first
entry with the given key. -/
def alookup : List (String × Yaml) → String → Option Yaml
  | [], _ => none
  | p :: rest, k => if p.1 = k then some p.2 else alookup rest k

/-- Python dict assignment on an association list: replace the value of
the first entry with the given key, preserving its position, or append a
new entry at the end. -/
def aset : List (String × Yaml) → String → Yaml → List (String × Yaml)
  | [], k, v => [(k, v)]
  | p :: rest, k, v => if p.1 = k then (k, v) :: rest else p :: aset rest k v

mutual
/-- Modelled from the spec: the external deep-merge-with-precedence
primitive `spack.config.merge_yaml dest source` (spec sections 4.3 and 6).
The last argument wins on leaf conflict; mappings are combined
recursively with the source's fresh keys appended; sequences are combined
with the source prepended and duplicate destination items dropped. -/
def merge_yaml : Yaml → Yaml → Yaml
  | Yaml.map dm, Yaml.map sm =>
      Yaml.map (mergeL dm sm ++ sm.filter (fun sp => (alookup dm sp.1).isNone))
  | Yaml.seq ds, Yaml.seq ss =>
      Yaml.seq (ss ++ ds.filter (fun x => !(ss.any (yamlBeq x))))
  | _, s => s

/-- Merge each destination entry with the source's value for the same key,
keeping destination order (helper of `merge_yaml`). -/
def mergeL : List (String × Yaml) → List (String × Yaml) → List (String × Yaml)
  | [], _ => []
  | p :: rest, sm =>
      (p.1, match alookup sm p.1 with
            | some sv => merge_yaml p.2 sv
            | none => p.2) :: mergeL rest sm
end

/-- Descend through nested mappings along a key path. -/
def lookupPath : Yaml → List String → Option Yaml
  | y, [] => some y
  | y, k :: ks =>
      match y with
      | Yaml.map m =>
        match alookup m k with
        | some v => lookupPath v ks
        | none => none
      | _ => none

/-- Set the value at a nested key path, creating intermediate mappings
where missing (the behaviour of the configuration-path assignments the
code issues through the package manager's config API). -/
def pathSet : List String → Yaml → Yaml → Yaml
  | [], v, _ => v
  | k :: ks, v, y =>
      let m := match y with
        | Yaml.map m => m
        | _ => []
      let child := match alookup m k with
        | some c => c
        | none => Yaml.map []
      Yaml.map (aset m k (pathSet ks v child))

example : merge_yaml (Yaml.map [("a", Yaml.scalar "1")]) (Yaml.map [("a", Yaml.scalar "2")])
    = Yaml.map [("a", Yaml.scalar "2")] := rfl

example : merge_yaml (Yaml.seq [Yaml.scalar "x"]) (Yaml.seq [Yaml.scalar "y"])
    = Yaml.seq [Yaml.scalar "y", Yaml.scalar "x"] := rfl

example : lookupPath (pathSet ["a", "b"] (Yaml.scalar "v") (Yaml.map [])) ["a", "b"]
    = some (Yaml.scalar "v") := rfl

theorem alookup_aset_self (l : List (String × Yaml)) (k : String) (v : Yaml) :
    alookup (aset l k v) k = some v := by
  induction l with
  | nil => simp [aset, alookup]
  | cons p rest ih =>
    by_cases h : p.1 = k
    · simp [aset, h, alookup]
    · simp [aset, h, alookup, ih]

theorem alookup_aset_ne (l : List (String × Yaml)) (k k' : String) (v : Yaml)
    (h : k' ≠ k) : alookup (aset l k v) k' = alookup l k' := by
  induction l with
  | nil => simp [aset, alookup, Ne.symm h]
  | cons p rest ih =>
    by_cases hp : p.1 = k
    · subst hp
      simp [aset, alookup, Ne.symm h]
    · simp [aset, hp, alookup, ih]

theorem alookup_append (l₁ l₂ : List (String × Yaml)) (k : String) :
    alookup (l₁ ++ l₂) k = ((alookup l₁ k).or (alookup l₂ k)) := by
  induction l₁ with
  | nil => simp [alookup]
  | cons p rest ih =>
    by_cases h : p.1 = k
    · simp [alookup, h]
    · simp [alookup, h, ih]

theorem mergeL_alookup (dm sm : List (String × Yaml)) (k : String) :
    alookup (mergeL dm sm) k
      = (alookup dm k).map (fun dv =>
          match alookup sm k with
          | some sv => merge_yaml dv sv
          | none => dv) := by
  induction dm with
  | nil => simp [mergeL, alookup]
  | cons p rest ih =>
    by_cases h : p.1 = k
    · subst h
      simp [mergeL, alookup]
    · simp [mergeL, alookup, h, ih]

theorem filter_missing_alookup (dm sm : List (String × Yaml)) (k : String) :
    alookup (sm.filter (fun sp => (alookup dm sp.1).isNone)) k
      = if (alookup dm k).isNone then alookup sm k else none := by
  induction sm with
  | nil => simp [alookup]
  | cons p rest ih =>
    by_cases h : p.1 = k
    · subst h
      cases hd : (alookup dm p.1).isNone with
      | true => simp [List.filter, hd, alookup, ih]
      | false => simp [List.filter, hd, alookup, ih]
    · cases hd : (alookup dm p.1).isNone with
      | true => simp [List.filter, hd, alookup, h, ih]
      | false => simp [List.filter, hd, alookup, h, ih]

/-- The mapping case of the merge, described entry-wise: shared keys are
merged recursively, destination-only keys keep their value, source-only
keys are taken from the source. -/
theorem merge_map_alookup (dm sm : List (String × Yaml)) (k : String) :
    alookup
      (mergeL dm sm ++ sm.filter (fun sp => (alookup dm sp.1).isNone)) k
      = match alookup dm k, alookup sm k with
        | some dv, some sv => some (merge_yaml dv sv)
        | some dv, none => some dv
        | none, o => o := by
  rw [alookup_append, mergeL_alookup, filter_missing_alookup]
  cases hd : alookup dm k with
  | none => simp
  | some dv =>
    cases hs : alookup sm k with
    | none => simp
    | some sv => simp

/-- A source document leaves a path alone when, descending through its
mappings, the path runs into a missing key: merging such a source cannot
clobber the destination's value at that path. -/
def clears : Yaml → List String → Bool
  | _, [] => false
  | y, k :: ks =>
      match y with
      | Yaml.map m =>
        match alookup m k with
        | some v => clears v ks
        | none => true
      | _ => false

/-- A scalar present in the merge's source (second, higher-precedence
argument) at some path survives the merge unchanged, whatever the
destination holds there. -/
theorem merge_lookupPath_scalar (path : List String) :
    ∀ (d s : Yaml) (v : String), lookupPath s path = some (Yaml.scalar v) →
      lookupPath (merge_yaml d s) path = some (Yaml.scalar v) := by
  induction path with
  | nil =>
    intro d s v hs
    simp [lookupPath] at hs
    subst hs
    cases d <;> rfl
  | cons k ks ih =>
    intro d s v hs
    cases s with
    | scalar a => simp [lookupPath] at hs
    | seq l => simp [lookupPath] at hs
    | map sm =>
      simp only [lookupPath] at hs
      cases hsl : alookup sm k with
      | none => simp [hsl] at hs
      | some sv =>
        simp only [hsl] at hs
        cases d with
        | scalar a =>
          show lookupPath (Yaml.map sm) (k :: ks) = _
          simp only [lookupPath, hsl]
          exact hs
        | seq l =>
          show lookupPath (Yaml.map sm) (k :: ks) = _
          simp only [lookupPath, hsl]
          exact hs
        | map dm =>
          show lookupPath
            (Yaml.map (mergeL dm sm ++ sm.filter (fun sp => (alookup dm sp.1).isNone)))
            (k :: ks) = _
          simp only [lookupPath, merge_map_alookup]
          cases hdl : alookup dm k with
          | none => simp only [hdl, hsl]; exact hs
          | some dv => simp only [hdl, hsl]; exact ih dv sv v hs

/-- A sequence present in the merge's source at some path survives as a
prefix of the merged value: the merge can only append destination items
after it, never drop or reorder the source's items. -/
theorem merge_lookupPath_seq (path : List String) :
    ∀ (d s : Yaml) (vs : List Yaml), lookupPath s path = some (Yaml.seq vs) →
      ∃ extra, lookupPath (merge_yaml d s) path = some (Yaml.seq (vs ++ extra)) := by
  induction path with
  | nil =>
    intro d s vs hs
    simp [lookupPath] at hs
    subst hs
    cases d with
    | scalar a =>
      exact ⟨[], by show lookupPath (Yaml.seq vs) [] = _; simp [lookupPath]⟩
    | seq ds =>
      exact ⟨ds.filter (fun x => !(vs.any (yamlBeq x))), rfl⟩
    | map dm =>
      exact ⟨[], by show lookupPath (Yaml.seq vs) [] = _; simp [lookupPath]⟩
  | cons k ks ih =>
    intro d s vs hs
    cases s with
    | scalar a => simp [lookupPath] at hs
    | seq l => simp [lookupPath] at hs
    | map sm =>
      simp only [lookupPath] at hs
      cases hsl : alookup sm k with
      | none => simp [hsl] at hs
      | some sv =>
        simp only [hsl] at hs
        cases d with
        | scalar a =>
          refine ⟨[], ?_⟩
          show lookupPath (Yaml.map sm) (k :: ks) = _
          simp only [lookupPath, hsl]
          simpa using hs
        | seq l =>
          refine ⟨[], ?_⟩
          show lookupPath (Yaml.map sm) (k :: ks) = _
          simp only [lookupPath, hsl]
          simpa using hs
        | map dm =>
          show ∃ extra, lookupPath
            (Yaml.map (mergeL dm sm ++ sm.filter (fun sp => (alookup dm sp.1).isNone)))
            (k :: ks) = _
          simp only [lookupPath, merge_map_alookup]
          cases hdl : alookup dm k with
          | none =>
            refine ⟨[], ?_⟩
            simp only [hdl, hsl]
            simpa using hs
          | some dv =>
            simp only [hdl, hsl]
            exact ih dv sv vs hs

/-- A scalar the destination holds at a path the source leaves alone
(`clears`) survives the merge unchanged. -/
theorem merge_lookupPath_clears (path : List String) :
    ∀ (d s : Yaml) (v : String), lookupPath d path = some (Yaml.scalar v) →
      clears s path = true → lookupPath (merge_yaml d s) path = some (Yaml.scalar v) := by
  induction path with
  | nil =>
    intro d s v _ hc
    simp [clears] at hc
  | cons k ks ih =>
    intro d s v hd hc
    cases d with
    | scalar a => simp [lookupPath] at hd
    | seq l => simp [lookupPath] at hd
    | map dm =>
      simp only [lookupPath] at hd
      cases hdl : alookup dm k with
      | none => simp [hdl] at hd
      | some dv =>
        simp only [hdl] at hd
        cases s with
        | scalar a => simp [clears] at hc
        | seq l => simp [clears] at hc
        | map sm =>
          simp only [clears] at hc
          show lookupPath
            (Yaml.map (mergeL dm sm ++ sm.filter (fun sp => (alookup dm sp.1).isNone)))
            (k :: ks) = _
          simp only [lookupPath, merge_map_alookup]
          cases hsl : alookup sm k with
          | none => simp only [hdl, hsl]; exact hd
          | some sv =>
            simp only [hsl] at hc
            simp only [hdl, hsl]
            exact ih dv sv v hd hc

/-- Looking up the exact path just set by `pathSet` yields the new value. -/
theorem lookupPath_pathSet_self (ks : List String) :
    ∀ (v y : Yaml), lookupPath (pathSet ks v y) ks = some v := by
  induction ks with
  | nil => intro v y; rfl
  | cons k ks ih =>
    intro v y
    simp only [pathSet, lookupPath, alookup_aset_self]
    exact ih v _

/-- The configuration scope of an activated environment: each known
configuration section name mapped to that section's data, as held by the
env-file config scope of the environment's `spack.yaml`. -/
def Scope : Type := List (String × Yaml)

/-- Modelled from the spec: the names of the known configuration sections
iterated by `spack.config.section_schemas.keys()` (spec sections 3
and 4.4); the section list itself lives in the package-manager library. -/
def sectionSchemasKeys : List String :=
  ["bootstrap", "compilers", "concretizer", "config", "definitions",
   "mirrors", "modules", "packages", "repos", "upstreams"]

/-- Modelled from the spec: `spack.config.get(key, scope)` for a bare
section name returns the section's document for that scope (spec
section 6c), here as the one-key mapping holding the section's data. -/
def config_get (scope : Scope) (k : String) : Yaml :=
  Yaml.map [(k, (alookup scope k).getD (Yaml.map []))]

/-- Modelled from the spec: `spack.config.set(section, data, scope)`
stores the given data as the section's contents in the scope (spec
section 6c). -/
def config_set (scope : Scope) (k : String) (v : Yaml) : Scope :=
  aset scope k v

/-- Modelled from the spec: `spack.config.add('sec:p1:...:pn:[value]',
scope)` assigns the value at the configuration path inside the scope,
creating intermediate mappings and fully overriding (not merging) the
previous value at the path (spec section 4.4). -/
def config_add (scope : Scope) (k : String) (path : List String) (v : Yaml) : Scope :=
  config_set scope k (pathSet path v ((alookup scope k).getD (Yaml.map [])))

/-- Python truthiness of a YAML value (`if section:` in the code). -/
def truthy : Yaml → Bool
  | Yaml.scalar s => !(s == "")
  | Yaml.seq l => !l.isEmpty
  | Yaml.map m => !m.isEmpty

/-- The `original_sections` capture loop of `StackEnv.write` (lines
181-185): for each known section name, record the section document the
scope currently holds, skipping falsy ones. -/
def captureOver (scope : Scope) : List String → List (String × Yaml)
  | [] => []
  | k :: rest =>
      let s := config_get scope k
      if truthy s then (k, s) :: captureOver scope rest
      else captureOver scope rest

/-- One iteration of the re-merge loop of `StackEnv.write` (lines
206-211): merge the captured pre-override section document on top of the
section's current document and store the result back in the scope. -/
def remergeSection (origs : List (String × Yaml)) (scope : Scope) (s : String) : Scope :=
  match lookupPath
      (merge_yaml (config_get scope s) ((alookup origs s).getD (Yaml.map []))) [s] with
  | some v => config_set scope s v
  | none => scope

/-- The named-override block of `StackEnv.write` (lines 187-202): the
compiler override assigns `packages:all::compiler:[c]`, the mpi override
assigns `packages:all::providers:mpi:[m]`, and the install-prefix
override assigns the install-tree root and the lmod and tcl module roots
under `<p>/modulefiles`. -/
def applyOverrides (scope : Scope) (compiler mpi instPfx : Option String) : Scope :=
  let s1 := match compiler with
    | some c => config_add scope "packages" ["all", "compiler"] (Yaml.seq [Yaml.scalar c])
    | none => scope
  let s2 := match mpi with
    | some m => config_add s1 "packages" ["all", "providers", "mpi"] (Yaml.seq [Yaml.scalar m])
    | none => s1
  match instPfx with
  | some p =>
    let t1 := config_add s2 "config" ["install_tree", "root"] (Yaml.scalar p)
    let t2 := config_add t1 "modules" ["default", "roots", "lmod"]
      (Yaml.scalar (p ++ "/modulefiles"))
    config_add t2 "modules" ["default", "roots", "tcl"]
      (Yaml.scalar (p ++ "/modulefiles"))
  | none => s2

/-- The configuration phase of `StackEnv.write` (lines 177-211): capture
the pre-override contents of every known configuration section, apply the
named convenience overrides (compiler, mpi, install prefix) through the
config API, then re-merge each captured section document on top. -/
def stackEnvConfigPhase (scope : Scope) (compiler mpi instPfx : Option String) : Scope :=
  sectionSchemasKeys.foldl (remergeSection (captureOver scope sectionSchemasKeys))
    (applyOverrides scope compiler mpi instPfx)

theorem captureOver_alookup (scope : Scope) (L : List String) (s : String)
    (hs : s ∈ L) : alookup (captureOver scope L) s = some (config_get scope s) := by
  induction L with
  | nil => cases hs
  | cons k rest ih =>
    have htr : truthy (config_get scope k) = true := rfl
    by_cases hk : k = s
    · subst hk
      simp [captureOver, htr, alookup]
    · have hsrest : s ∈ rest := by
        cases hs with
        | head => exact absurd rfl hk
        | tail _ h => exact h
      simp [captureOver, htr, alookup, hk, ih hsrest]

theorem remergeSection_alookup_ne (origs : List (String × Yaml)) (scope : Scope)
    (s s' : String) (h : s' ≠ s) :
    alookup (remergeSection origs scope s) s' = alookup scope s' := by
  unfold remergeSection
  cases lookupPath (merge_yaml (config_get scope s)
      ((alookup origs s).getD (Yaml.map []))) [s] with
  | none => rfl
  | some v => exact alookup_aset_ne scope s s' v h

theorem remergeSection_alookup_self (origs : List (String × Yaml)) (scope : Scope)
    (s : String) (O : Yaml) (ho : alookup origs s = some (Yaml.map [(s, O)])) :
    alookup (remergeSection origs scope s) s
      = some (merge_yaml ((alookup scope s).getD (Yaml.map [])) O) := by
  have key : lookupPath (merge_yaml (config_get scope s) (Yaml.map [(s, O)])) [s]
      = some (merge_yaml ((alookup scope s).getD (Yaml.map [])) O) := by
    have hm : merge_yaml (config_get scope s) (Yaml.map [(s, O)])
        = Yaml.map (mergeL [(s, (alookup scope s).getD (Yaml.map []))] [(s, O)]
            ++ [(s, O)].filter
              (fun sp => (alookup [(s, (alookup scope s).getD (Yaml.map []))] sp.1).isNone)) := rfl
    rw [hm]
    simp only [lookupPath, merge_map_alookup, alookup, if_pos rfl]
    simp
  unfold remergeSection
  rw [ho]
  simp only [Option.getD_some, key]
  exact alookup_aset_self scope s _

theorem foldl_remerge_alookup_notmem (origs : List (String × Yaml)) (s : String) :
    ∀ (L : List String) (scope : Scope), s ∉ L →
      alookup (L.foldl (remergeSection origs) scope) s = alookup scope s := by
  intro L
  induction L with
  | nil => intro scope _; rfl
  | cons k rest ih =>
    intro scope hs
    have hk : s ≠ k := fun h => hs (h ▸ List.mem_cons_self k rest)
    have hrest : s ∉ rest := fun h => hs (List.mem_cons_of_mem k h)
    rw [List.foldl_cons, ih _ hrest, remergeSection_alookup_ne _ _ _ _ hk]

theorem foldl_remerge_alookup_mem (origs : List (String × Yaml)) (s : String) (O : Yaml)
    (ho : alookup origs s = some (Yaml.map [(s, O)])) :
    ∀ (L : List String) (scope : Scope), s ∈ L →
      ∃ E, alookup (L.foldl (remergeSection origs) scope) s = some (merge_yaml E O) := by
  intro L
  induction L with
  | nil => intro scope hs; cases hs
  | cons k rest ih =>
    intro scope hs
    by_cases hrest : s ∈ rest
    · exact ih (remergeSection origs scope k) hrest
    · have hk : s = k := by
        cases hs with
        | head => rfl
        | tail _ h => exact absurd h hrest
      subst hk
      rw [List.foldl_cons, foldl_remerge_alookup_notmem origs s rest _ hrest,
        remergeSection_alookup_self origs scope s O ho]
      exact ⟨_, rfl⟩

/-- C1: in `StackEnv.write`, whatever values the original template's
configuration sections set survive the named overrides: every known
section captured before the overrides is re-merged on top at the end with
highest precedence, so a scalar the template set at any configuration
path is exactly the final value there, and a sequence the template set
remains the (highest-precedence) leading prefix of the final value. -/
theorem stackEnv_write_template_sections_win
    (scope : Scope) (compiler mpi instPfx : Option String)
    (s : String) (D : Yaml)
    (hs : s ∈ sectionSchemasKeys)
    (hD : alookup scope s = some D) :
    (∀ (path : List String) (v : String),
        lookupPath D path = some (Yaml.scalar v) →
        ∃ E, alookup (stackEnvConfigPhase scope compiler mpi instPfx) s = some E ∧
          lookupPath E path = some (Yaml.scalar v)) ∧
    (∀ (path : List String) (vs : List Yaml),
        lookupPath D path = some (Yaml.seq vs) →
        ∃ E extra, alookup (stackEnvConfigPhase scope compiler mpi instPfx) s = some E ∧
          lookupPath E path = some (Yaml.seq (vs ++ extra))) := by
  have ho : alookup (captureOver scope sectionSchemasKeys) s = some (Yaml.map [(s, D)]) := by
    rw [captureOver_alookup scope sectionSchemasKeys s hs]
    simp [config_get, hD]
  obtain ⟨E, hE⟩ := foldl_remerge_alookup_mem (captureOver scope sectionSchemasKeys) s D ho
    sectionSchemasKeys (applyOverrides scope compiler mpi instPfx) hs
  have hfin : alookup (stackEnvConfigPhase scope compiler mpi instPfx) s
      = some (merge_yaml E D) := hE
  constructor
  · intro path v hp
    exact ⟨merge_yaml E D, hfin, merge_lookupPath_scalar path E D v hp⟩
  · intro path vs hp
    obtain ⟨extra, hextra⟩ := merge_lookupPath_seq path E D vs hp
    exact ⟨merge_yaml E D, extra, hfin, hextra⟩

/-- Witness for C1 at a concrete template: the template sets
`packages:all:compiler` to the one-element list `[gcc]`; with the compiler
override `intel` supplied, the final scope still holds that list as the
leading prefix of `packages:all:compiler`. -/
theorem stackEnv_write_template_sections_win_witness :
    ∃ E extra,
      alookup
        (stackEnvConfigPhase
          [("packages",
             Yaml.map [("all", Yaml.map [("compiler", Yaml.seq [Yaml.scalar "gcc"])])])]
          (some "intel") none none) "packages" = some E ∧
      lookupPath E ["all", "compiler"]
        = some (Yaml.seq ([Yaml.scalar "gcc"] ++ extra)) :=
  (stackEnv_write_template_sections_win
      [("packages",
         Yaml.map [("all", Yaml.map [("compiler", Yaml.seq [Yaml.scalar "gcc"])])])]
      (some "intel") none none "packages"
      (Yaml.map [("all", Yaml.map [("compiler", Yaml.seq [Yaml.scalar "gcc"])])])
      (by simp [sectionSchemasKeys]) rfl).2
    ["all", "compiler"] [Yaml.scalar "gcc"] rfl

/-- A minimal filesystem state: the set of existing directories and the
written files with their document contents. -/
structure FS where
  dirs : List String
  files : List (String × Yaml)

/-- Modelled from the spec: `os.path.isabs` on a posix path. -/
def isAbs (p : String) : Bool :=
  match p.data with
  | c :: _ => c == '/'
  | [] => false

/-- Modelled from the spec: `os.path.join` for the two-component joins
the code performs. -/
def pathJoin (a b : String) : String := a ++ "/" ++ b

/-- Modelled from the spec: `shutil.copytree src dst` materialises the
include directory tree at the destination (its file contents are opaque
to this module). -/
def copytree (fs : FS) (dst : String) : FS :=
  { fs with dirs := fs.dirs ++ [dst] }

/-- Site normalization in `StackEnv.__init__` (lines 90-92): the kwargs
value `none` (the string) is replaced by the absent value. -/
def normalizeSite ( site : Option String) : Option String :=
  if site = some "none" then none else site

/-- The include-copy phase of `StackEnv.write` (lines 149-161 together
with `_copy_site_includes` and `_copy_common_includes`): unless the site
field equals the string `none`, copy the site directory (raising when no
site is set) and append `site`; then copy the common directory and append
`common`. -/
def stackEnvIncludePhase (fs : FS) (env_dir : String) ( site : Option String)
    (includes : List String) : Except String (FS × List String) :=
  if site ≠ some "none" then
    match site with
    | none => Except.error "Site is not set"
    | some _ =>
      Except.ok
        (copytree (copytree fs (pathJoin env_dir "site")) (pathJoin env_dir "common"),
         (includes ++ ["site"]) ++ ["common"])
  else
    Except.ok (copytree fs (pathJoin env_dir "common"), includes ++ ["common"])

/-- The existence guard opening `StackEnv.write` (lines 141-147): fail if
the environment directory already exists, otherwise create it. -/
def stackEnvWriteStart (fs : FS) (env_dir : String) : FS × Except String Unit :=
  if env_dir ∈ fs.dirs then (fs, Except.error "Environment already exists.")
  else ({ fs with dirs := fs.dirs ++ [env_dir] }, Except.ok ())

/-- The filesystem tail of `StackContainer.write` (lines 75-78):
`os.makedirs(self.env_dir, exist_ok=True)` followed by opening
`spack.yaml` for writing — no existence check, existing contents
overwritten. -/
def containerWriteFs (fs : FS) (env_dir : String) (doc : Yaml) : FS :=
  let fs1 := if env_dir ∈ fs.dirs then fs else { fs with dirs := fs.dirs ++ [env_dir] }
  { fs1 with files := aset fs1.files (pathJoin env_dir "spack.yaml") doc }

/-- Template resolution in `StackEnv.__init__` (lines 74-88): an absolute
template is recorded without an existence check and opened directly; a
template name is resolved under the template directory, raising the
explicit does-not-exist error when absent, and `<dir>/spack.yaml` is
opened; opening a missing file raises the interpreter's file-not-found
error instead. Returns the opened file's path (absent template uses the
built-in default manifest). -/
def stackEnvResolveTemplate (ex : List String) (tdir : String)
    (template : Option String) : Except String (Option String) :=
  match template with
  | none => Except.ok none
  | some t =>
    if isAbs t then
      if t ∈ ex then Except.ok (some t) else Except.error "FileNotFoundError"
    else if pathJoin tdir t ∈ ex then
      if pathJoin (pathJoin tdir t) "spack.yaml" ∈ ex then
        Except.ok (some (pathJoin (pathJoin tdir t) "spack.yaml"))
      else Except.error "FileNotFoundError"
    else Except.error "Template does not exist"

/-- Container resolution in `StackContainer.__init__` (lines 18-24): a
name existing as `<container dir>/<name>.yaml` wins; otherwise any
absolute identifier is recorded without an existence check; otherwise the
explicit invalid-container error is raised. -/
def containerResolve (ex : List String) (cdir : String) (container : String) :
    Except String String :=
  if pathJoin cdir (container ++ ".yaml") ∈ ex then
    Except.ok (pathJoin cdir (container ++ ".yaml"))
  else if isAbs container then Except.ok container
  else Except.error "Invalid container"

/-- Template resolution in `StackContainer.__init__` (lines 26-31): any
absolute identifier is recorded without an existence check; otherwise a
name must exist under the template directory, else the explicit
invalid-template error is raised. -/
def containerResolveTemplate (ex : List String) (tdir : String) (template : String) :
    Except String String :=
  if isAbs template then Except.ok template
  else if pathJoin tdir template ∈ ex then Except.ok (pathJoin tdir template)
  else Except.error "Invalid template"

/-- Construction followed by the first filesystem mutation of
`StackEnv.write`: template resolution happens in `__init__`, before any
directory is created. -/
def stackEnvInitWrite (fs : FS) (ex : List String) (tdir : String)
    (template : Option String) (env_dir : String) : FS × Except String Unit :=
  match stackEnvResolveTemplate ex tdir template with
  | Except.error e => (fs, Except.error e)
  | Except.ok _ => stackEnvWriteStart fs env_dir

/-- Construction followed by `StackContainer.write`: container and
template resolution happen in `__init__`, before the directory is created
and the merged document written. -/
def containerInitWrite (fs : FS) (ex : List String) (cdir tdir : String)
    (container template name dir : String) (doc : Yaml) : FS × Except String Unit :=
  match containerResolve ex cdir container with
  | Except.error e => (fs, Except.error e)
  | Except.ok _ =>
    match containerResolveTemplate ex tdir template with
    | Except.error e => (fs, Except.error e)
    | Except.ok _ => (containerWriteFs fs (pathJoin dir name) doc, Except.ok ())

/-- C2 (behaviour at the cited lines): `__init__` rewrites the site value
`none` to the absent value, but `write` skips the site copy only when the
site field literally equals the string `none`; so whenever no site is
set, `write` raises the site-not-set error instead of succeeding with
`include = [common]`, and only a set site succeeds, with the `include`
list equal in order to the names of the directories actually copied,
`site` then `common`. -/
theorem stackEnv_write_include_list_eval :
    (stackEnvIncludePhase (FS.mk [] []) "envs/e" (normalizeSite none) []
       = Except.error "Site is not set")
  ∧ (stackEnvIncludePhase (FS.mk [] []) "envs/e" (normalizeSite (some "none")) []
       = Except.error "Site is not set")
  ∧ (stackEnvIncludePhase (FS.mk [] []) "envs/e" (normalizeSite (some "hera")) []
       = Except.ok
           (FS.mk [pathJoin "envs/e" "site", pathJoin "envs/e" "common"] [],
            ["site", "common"])) :=
  ⟨rfl, rfl, rfl⟩

/-- C4 counterexample: `StackContainer.write` called with the environment
directory already existing and holding a manifest does not fail — it
overwrites the manifest, mutating the directory contents. -/
theorem stackContainer_write_overwrites_existing :
    (containerWriteFs (FS.mk ["envs/c"] [(pathJoin "envs/c" "spack.yaml", Yaml.scalar "old")])
        "envs/c" (Yaml.scalar "new")).files
      ≠ (FS.mk ["envs/c"] [(pathJoin "envs/c" "spack.yaml", Yaml.scalar "old")]).files := by
  have hL : (containerWriteFs
        (FS.mk ["envs/c"] [(pathJoin "envs/c" "spack.yaml", Yaml.scalar "old")])
        "envs/c" (Yaml.scalar "new")).files
      = [(pathJoin "envs/c" "spack.yaml", Yaml.scalar "new")] := rfl
  rw [hL]
  intro h
  simp at h

/-- C4 (amended): `StackEnv.write` on an existing environment directory
fails with the already-exists error and leaves the filesystem unchanged,
while `StackContainer.write` performs no existence check: it tolerates an
existing directory and writes the manifest at `<env dir>/spack.yaml`
unconditionally. -/
theorem write_already_exists_split :
    (∀ (fs : FS) (d : String), d ∈ fs.dirs →
        stackEnvWriteStart fs d = (fs, Except.error "Environment already exists."))
  ∧ (∀ (fs : FS) (d : String) (doc : Yaml),
        alookup (containerWriteFs fs d doc).files (pathJoin d "spack.yaml") = some doc) := by
  constructor
  · intro fs d h
    simp [stackEnvWriteStart, h]
  · intro fs d doc
    by_cases h : d ∈ fs.dirs <;> simp [containerWriteFs, h, alookup_aset_self]

/-- Witness for C4's amended statement at a concrete filesystem. -/
theorem write_already_exists_split_witness :
    ("envs/c" ∈ (FS.mk ["envs/c"] []).dirs)
  ∧ stackEnvWriteStart (FS.mk ["envs/c"] []) "envs/c"
      = (FS.mk ["envs/c"] [], Except.error "Environment already exists.") :=
  ⟨by simp, write_already_exists_split.1 (FS.mk ["envs/c"] []) "envs/c" (by simp)⟩

/-- C5 counterexample: an absolute identifier naming no existing file is
nevertheless accepted by `StackContainer`'s template resolution — the
construction succeeds and records the path, where the claim requires an
explicit failure. -/
theorem container_template_abs_missing_accepted :
    (isAbs "/no/such/spack.yaml" = true)
  ∧ ("/no/such/spack.yaml" ∉ ([] : List String))
  ∧ (containerResolveTemplate [] "/opt/templates" "/no/such/spack.yaml"
      = Except.ok "/no/such/spack.yaml") :=
  ⟨rfl, by simp, rfl⟩

/-- C5 (amended): the explicit invalid-identifier error is raised exactly
when the identifier is neither absolute nor an existing name under the
fixed directory; an absolute identifier is accepted without any existence
check (`StackContainer` records it as-is; `StackEnv` fails later with the
interpreter's file-not-found error when opening it). -/
theorem resolve_explicit_error_iff (ex : List String) (tdir cdir t c : String) :
    (containerResolveTemplate ex tdir t = Except.error "Invalid template"
        ↔ isAbs t = false ∧ pathJoin tdir t ∉ ex)
  ∧ (containerResolve ex cdir c = Except.error "Invalid container"
        ↔ pathJoin cdir (c ++ ".yaml") ∉ ex ∧ isAbs c = false)
  ∧ (stackEnvResolveTemplate ex tdir (some t) = Except.error "Template does not exist"
        ↔ isAbs t = false ∧ pathJoin tdir t ∉ ex) := by
  refine ⟨?_, ?_, ?_⟩
  · unfold containerResolveTemplate
    by_cases h1 : isAbs t = true
    · simp [h1]
    · by_cases h2 : pathJoin tdir t ∈ ex <;>
        simp [h1, h2, Bool.not_eq_true _ ▸ h1]
  · unfold containerResolve
    by_cases h1 : pathJoin cdir (c ++ ".yaml") ∈ ex
    · simp [h1]
    · by_cases h2 : isAbs c = true <;> simp [h1, h2]
  · unfold stackEnvResolveTemplate
    by_cases h1 : isAbs t = true
    · by_cases h2 : t ∈ ex <;> simp [h1, h2]
    · by_cases h2 : pathJoin tdir t ∈ ex
      · by_cases h3 : pathJoin (pathJoin tdir t) "spack.yaml" ∈ ex <;> simp [h1, h2, h3]
      · simp [h1, h2]

/-- C6: an unknown (non-absolute, not present under the fixed directory)
template or container name raises the explicit error during construction,
and the combined construct-then-write flow returns with the filesystem
unchanged: no environment directory is created and no file is written. -/
theorem unknown_name_no_fs_mutation
    (fs : FS) (ex : List String) (tdir cdir dir name : String)
    (t c : String) (doc : Yaml) :
    (isAbs t = false → pathJoin tdir t ∉ ex →
      stackEnvInitWrite fs ex tdir (some t) (pathJoin dir name)
        = (fs, Except.error "Template does not exist"))
  ∧ (isAbs c = false → pathJoin cdir (c ++ ".yaml") ∉ ex →
      containerInitWrite fs ex cdir tdir c t name dir doc
        = (fs, Except.error "Invalid container")) := by
  constructor
  · intro h1 h2
    simp [stackEnvInitWrite, stackEnvResolveTemplate, h1, h2]
  · intro h1 h2
    simp [containerInitWrite, containerResolve, h1, h2]

/-- Witness for C6 at concrete unknown names on an empty filesystem. -/
theorem unknown_name_no_fs_mutation_witness :
    stackEnvInitWrite (FS.mk [] []) [] "/opt/tpl" (some "mytemplate") (pathJoin "envs" "e")
        = (FS.mk [] [], Except.error "Template does not exist")
  ∧ containerInitWrite (FS.mk [] []) [] "/opt/ctr" "/opt/tpl" "mycontainer" "mytemplate"
        "e" "envs" (Yaml.map [])
        = (FS.mk [] [], Except.error "Invalid container") :=
  ⟨(unknown_name_no_fs_mutation (FS.mk [] []) [] "/opt/tpl" "/opt/ctr" "envs" "e"
      "mytemplate" "mycontainer" (Yaml.map [])).1 rfl (by simp),
   (unknown_name_no_fs_mutation (FS.mk [] []) [] "/opt/tpl" "/opt/ctr" "envs" "e"
      "mytemplate" "mycontainer" (Yaml.map [])).2 rfl (by simp)⟩

/-- The packages-pin step of `StackContainer.write` (lines 63-67): ensure
the container document's `spack:packages` mapping exists, then deep-merge
the pin document's `packages` section into it. -/
def containerPinned (container_yaml : Yaml) (sm : List (String × Yaml)) (pk : Yaml) : Yaml :=
  let c1 := if (alookup sm "packages").isSome then container_yaml
            else pathSet ["spack", "packages"] (Yaml.map []) container_yaml
  pathSet ["spack", "packages"]
    (merge_yaml ((lookupPath c1 ["spack", "packages"]).getD (Yaml.map [])) pk) c1

/-- The merge sequence of `StackContainer.write` (lines 52-71): keep a
pristine copy of the container document, apply the packages-pin step,
deep-merge the app template document over the result, and deep-merge the
pristine original over everything last.  Missing `spack` or `packages`
keys raise (Python `KeyError`). -/
def containerMerged (container_yaml template_yaml packages_yaml : Yaml) : Except String Yaml :=
  match container_yaml with
  | Yaml.map cm =>
    match alookup cm "spack" with
    | some (Yaml.map sm) =>
      match packages_yaml with
      | Yaml.map pm =>
        match alookup pm "packages" with
        | some pk =>
          Except.ok (merge_yaml
            (merge_yaml (containerPinned container_yaml sm pk) template_yaml)
            container_yaml)
        | none => Except.error "KeyError packages"
      | _ => Except.error "KeyError packages"
    | _ => Except.error "KeyError spack"
  | _ => Except.error "KeyError spack"

/-- The app-label assignment of `StackContainer.write` (line 73):
`merged[spack][container][labels][app] = template`, raising when the
`spack:container:labels` mapping path is absent. -/
def setAppLabel (doc : Yaml) (t : String) : Except String Yaml :=
  match lookupPath doc ["spack", "container", "labels"] with
  | some (Yaml.map _) =>
      Except.ok (pathSet ["spack", "container", "labels", "app"] (Yaml.scalar t) doc)
  | _ => Except.error "KeyError labels"

/-- The document produced by `StackContainer.write` (lines 39-73): the
merge sequence followed by the app-label assignment. -/
def StackContainerWriteDoc (container_yaml template_yaml packages_yaml : Yaml)
    (tmpl : String) : Except String Yaml :=
  match containerMerged container_yaml template_yaml packages_yaml with
  | Except.error e => Except.error e
  | Except.ok m => setAppLabel m tmpl

/-- C3: `StackContainer.write` merges in the order base pins, then app
template, then the pristine original container document last — so a
scalar the original container document set at any path is still the
merged value there, and a scalar the template set at a path the container
document leaves alone is filled in from the template. -/
theorem stackContainer_write_merge_order
    (cm sm pm : List (String × Yaml)) (t pk : Yaml)
    (hsp : alookup cm "spack" = some (Yaml.map sm))
    (hpk : alookup pm "packages" = some pk) :
    ∃ r, containerMerged (Yaml.map cm) t (Yaml.map pm) = Except.ok r
      ∧ (∀ (path : List String) (v : String),
          lookupPath (Yaml.map cm) path = some (Yaml.scalar v) →
          lookupPath r path = some (Yaml.scalar v))
      ∧ (∀ (path : List String) (v : String),
          lookupPath t path = some (Yaml.scalar v) →
          clears (Yaml.map cm) path = true →
          lookupPath r path = some (Yaml.scalar v)) := by
  have hX : containerMerged (Yaml.map cm) t (Yaml.map pm)
      = Except.ok (merge_yaml
          (merge_yaml (containerPinned (Yaml.map cm) sm pk) t) (Yaml.map cm)) := by
    simp only [containerMerged, hsp, hpk]
  refine ⟨_, hX, ?_, ?_⟩
  · intro path v hp
    exact merge_lookupPath_scalar path
      (merge_yaml (containerPinned (Yaml.map cm) sm pk) t) (Yaml.map cm) v hp
  · intro path v hp hc
    exact merge_lookupPath_clears path
      (merge_yaml (containerPinned (Yaml.map cm) sm pk) t) (Yaml.map cm) v
      (merge_lookupPath_scalar path (containerPinned (Yaml.map cm) sm pk) t v hp) hc

/-- Witness for C3: a container document pinning a diagnostic scalar and
setting an explicit value the template also sets; the original's scalar
survives and the template fills the gap the container leaves open. -/
theorem stackContainer_write_merge_order_witness :
    ∃ r, containerMerged
        (Yaml.map [("spack",
           Yaml.map [("container", Yaml.map [("format", Yaml.scalar "docker")])])])
        (Yaml.map [("spack", Yaml.map [("view", Yaml.scalar "false")])])
        (Yaml.map [("packages", Yaml.map [("zlib", Yaml.scalar "1.2")])])
        = Except.ok r
      ∧ lookupPath r ["spack", "container", "format"] = some (Yaml.scalar "docker")
      ∧ lookupPath r ["spack", "view"] = some (Yaml.scalar "false") := by
  obtain ⟨r, hr, hkeep, hfill⟩ := stackContainer_write_merge_order
    [("spack", Yaml.map [("container", Yaml.map [("format", Yaml.scalar "docker")])])]
    [("container", Yaml.map [("format", Yaml.scalar "docker")])]
    [("packages", Yaml.map [("zlib", Yaml.scalar "1.2")])]
    (Yaml.map [("spack", Yaml.map [("view", Yaml.scalar "false")])])
    (Yaml.map [("zlib", Yaml.scalar "1.2")]) rfl rfl
  exact ⟨r, hr, hkeep ["spack", "container", "format"] "docker" rfl,
    hfill ["spack", "view"] "false" rfl rfl⟩

/-- C9: the written container document's `spack:container:labels:app`
equals the template identifier passed to the constructor — assigned after
the final original-wins re-merge, overriding any app label the merged
layers held — and `write` raises when the merged document lacks the
`spack:container:labels` mapping path. -/
theorem container_app_label_set (c t p : Yaml) (tmpl : String) :
    (∀ d, StackContainerWriteDoc c t p tmpl = Except.ok d →
        lookupPath d ["spack", "container", "labels", "app"] = some (Yaml.scalar tmpl))
  ∧ (∀ m, containerMerged c t p = Except.ok m →
        (∀ lm, lookupPath m ["spack", "container", "labels"] ≠ some (Yaml.map lm)) →
        ∃ e, StackContainerWriteDoc c t p tmpl = Except.error e) := by
  constructor
  · intro d hd
    unfold StackContainerWriteDoc at hd
    cases hcm : containerMerged c t p with
    | error e => rw [hcm] at hd; simp at hd
    | ok m =>
      rw [hcm] at hd
      have hd2 : setAppLabel m tmpl = Except.ok d := hd
      unfold setAppLabel at hd2
      cases hl : lookupPath m ["spack", "container", "labels"] with
      | none => rw [hl] at hd2; simp at hd2
      | some y =>
        rw [hl] at hd2
        cases y with
        | scalar a => simp at hd2
        | seq l => simp at hd2
        | map lm =>
          have hd3 : Except.ok (pathSet ["spack", "container", "labels", "app"]
              (Yaml.scalar tmpl) m) = Except.ok d := hd2
          have hd' : pathSet ["spack", "container", "labels", "app"]
              (Yaml.scalar tmpl) m = d := by injection hd3
          rw [← hd']
          exact lookupPath_pathSet_self ["spack", "container", "labels", "app"]
            (Yaml.scalar tmpl) m
  · intro m hm hl
    refine ⟨"KeyError labels", ?_⟩
    unfold StackContainerWriteDoc
    rw [hm]
    show setAppLabel m tmpl = Except.error "KeyError labels"
    unfold setAppLabel
    cases hx : lookupPath m ["spack", "container", "labels"] with
    | none => rfl
    | some y =>
      cases y with
      | scalar a => rfl
      | seq l => rfl
      | map lm => exact absurd hx (hl lm)

/-- Witness for C9 at a concrete container, template, and pin document:
the produced document carries the template identifier as its app label. -/
theorem container_app_label_set_witness :
    ∃ d, StackContainerWriteDoc
        (Yaml.map [("spack",
           Yaml.map [("container", Yaml.map [("labels", Yaml.map [])])])])
        (Yaml.map []) (Yaml.map [("packages", Yaml.map [])]) "myapp"
        = Except.ok d
      ∧ lookupPath d ["spack", "container", "labels", "app"]
          = some (Yaml.scalar "myapp") := by
  refine ⟨_, rfl, ?_⟩
  exact (container_app_label_set
      (Yaml.map [("spack",
         Yaml.map [("container", Yaml.map [("labels", Yaml.map [])])])])
      (Yaml.map []) (Yaml.map [("packages", Yaml.map [])]) "myapp").1 _ rfl

/-- Modelled from the spec: `get_git_revision_short_hash` (lines 37-39)
invokes the version-control subprocess at a directory root; the
subprocess's outcome is the oracle argument — a missing checkout or tool
yields no output and the call raises. -/
def get_git_revision_short_hash (subprocessOut : Option String) : Except String String :=
  match subprocessOut with
  | some h => Except.ok h
  | none => Except.error "subprocess.CalledProcessError"

/-- The include-list assignment of `StackEnv.write` (line 161):
`env_yaml[spack][include] = self.includes`. -/
def stackEnvSetIncludes (env_yaml : Yaml) (incs : List String) : Yaml :=
  pathSet ["spack", "include"] (Yaml.seq (incs.map Yaml.scalar)) env_yaml

/-- The manifest write of `StackEnv.write` (lines 160-170): fill in the
include list, obtain the spack-stack and spack short hashes, and emit the
two-line provenance header together with the document; a failed hash
query propagates and no fallback header is produced. -/
def stackEnvWriteManifest (env_yaml : Yaml) (incs : List String)
    (stackRev spackRev : Option String) : Except String (String × Yaml) :=
  match get_git_revision_short_hash stackRev with
  | Except.error e => Except.error e
  | Except.ok s =>
    match get_git_revision_short_hash spackRev with
    | Except.error e => Except.error e
    | Except.ok p =>
      Except.ok ("spack-stack hash: " ++ s ++ "\nspack hash: " ++ p,
        stackEnvSetIncludes env_yaml incs)

/-- C7: if either version-control hash query fails, the manifest write of
`StackEnv.write` fails with the propagated error and no fallback value is
substituted; when both succeed, the header contains exactly the two
hashes. -/
theorem stackEnv_write_header_hard_failure
    (env_yaml : Yaml) (incs : List String) (stackRev spackRev : Option String) :
    ((stackRev = none ∨ spackRev = none) →
      ∃ e, stackEnvWriteManifest env_yaml incs stackRev spackRev = Except.error e)
  ∧ (∀ s p, stackEnvWriteManifest env_yaml incs (some s) (some p)
      = Except.ok ("spack-stack hash: " ++ s ++ "\nspack hash: " ++ p,
          stackEnvSetIncludes env_yaml incs)) := by
  constructor
  · intro h
    cases stackRev with
    | none => exact ⟨"subprocess.CalledProcessError", rfl⟩
    | some s =>
      cases spackRev with
      | none => exact ⟨"subprocess.CalledProcessError", rfl⟩
      | some p => rcases h with h | h <;> simp at h
  · intro s p
    rfl

/-- Witness for C7: the spack-stack hash query failing makes the manifest
write fail. -/
theorem stackEnv_write_header_hard_failure_witness :
    ∃ e, stackEnvWriteManifest (Yaml.map [("spack", Yaml.map [])]) ["site", "common"]
        none (some "abc1234") = Except.error e :=
  (stackEnv_write_header_hard_failure (Yaml.map [("spack", Yaml.map [])])
      ["site", "common"] none (some "abc1234")).1 (Or.inl rfl)

/-- Python's `str.replace` for the pattern `::` to `:` (container module,
lines 48-49 and 60): one left-to-right scan, replacing each
non-overlapping occurrence and resuming after the replacement. -/
def replaceDoubleColon : List Char → List Char
  | ':' :: ':' :: rest => ':' :: replaceDoubleColon rest
  | c :: rest => c :: replaceDoubleColon rest
  | [] => []

/-- The same transform at the string level, as applied to the raw YAML
text before parsing. -/
def pyReplaceDoubleColon (s : String) : String :=
  String.mk (replaceDoubleColon s.data)

/-- Whether two consecutive colons occur. -/
def hasDoubleColon : List Char → Bool
  | ':' :: ':' :: _ => true
  | _ :: rest => hasDoubleColon rest
  | [] => false

/-- Whether three consecutive colons occur. -/
def hasTripleColon : List Char → Bool
  | ':' :: ':' :: ':' :: _ => true
  | _ :: rest => hasTripleColon rest
  | [] => false

/-- C8 counterexample: the override-marker replacement is not idempotent
— on three consecutive colons one pass yields two colons, and a second
pass changes the result again. -/
theorem replace_double_colon_not_idempotent :
    replaceDoubleColon (replaceDoubleColon [':', ':', ':'])
      ≠ replaceDoubleColon [':', ':', ':'] := by decide

theorem replace_id_of_no_double (l : List Char) (h : hasDoubleColon l = false) :
    replaceDoubleColon l = l := by
  induction l using replaceDoubleColon.induct with
  | case1 rest ih => simp [hasDoubleColon] at h
  | case2 c rest hne ih =>
    have hr : replaceDoubleColon (c :: rest) = c :: replaceDoubleColon rest := by
      rw [replaceDoubleColon]
      exact hne
    have hh : hasDoubleColon (c :: rest) = hasDoubleColon rest := by
      rw [hasDoubleColon]
      exact hne
    rw [hh] at h
    rw [hr, ih h]
  | case3 => rfl

theorem replace_no_double_of_no_triple (l : List Char) (h : hasTripleColon l = false) :
    hasDoubleColon (replaceDoubleColon l) = false := by
  induction l using replaceDoubleColon.induct with
  | case1 rest ih =>
    rw [replaceDoubleColon]
    cases rest with
    | nil => rfl
    | cons c2 rest2 =>
      by_cases hc2 : c2 = ':'
      · subst hc2
        simp [hasTripleColon] at h
      · have hr2 : replaceDoubleColon (c2 :: rest2) = c2 :: replaceDoubleColon rest2 := by
          rw [replaceDoubleColon]
          intro xs hcc _
          exact hc2 hcc
        rw [hr2]
        have hh : hasDoubleColon (':' :: c2 :: replaceDoubleColon rest2)
            = hasDoubleColon (c2 :: replaceDoubleColon rest2) := by
          rw [hasDoubleColon]
          intro xs _ hx
          injection hx with h1 _
          exact hc2 h1
        have hh2 : hasDoubleColon (c2 :: replaceDoubleColon rest2)
            = hasDoubleColon (replaceDoubleColon rest2) := by
          rw [hasDoubleColon]
          intro xs hcc _
          exact hc2 hcc
        rw [hh, hh2]
        have h1 : hasTripleColon (':' :: ':' :: c2 :: rest2)
            = hasTripleColon (':' :: c2 :: rest2) := by
          rw [hasTripleColon]
          intro xs _ hx
          injection hx with _ hx2
          injection hx2 with h2 _
          exact hc2 h2
        have h2 : hasTripleColon (':' :: c2 :: rest2) = hasTripleColon (c2 :: rest2) := by
          rw [hasTripleColon]
          intro xs _ hx
          injection hx with h3 _
          exact hc2 h3
        have h3 : hasTripleColon (c2 :: rest2) = hasTripleColon rest2 := by
          rw [hasTripleColon]
          intro xs hcc _
          exact hc2 hcc
        rw [h1, h2] at h
        have hgoal := ih h
        rw [hr2] at hgoal
        rw [hh2] at hgoal
        exact hgoal
  | case2 c rest hne ih =>
    have hr : replaceDoubleColon (c :: rest) = c :: replaceDoubleColon rest := by
      rw [replaceDoubleColon]
      exact hne
    rw [hr]
    by_cases hc : c = ':'
    · subst hc
      cases rest with
      | nil => rfl
      | cons c2 rest2 =>
        have hc2 : c2 ≠ ':' := fun hcc => hne rest2 rfl (by rw [hcc])
        have hr2 : replaceDoubleColon (c2 :: rest2) = c2 :: replaceDoubleColon rest2 := by
          rw [replaceDoubleColon]
          intro xs hcc _
          exact hc2 hcc
        rw [hr2]
        have hh : hasDoubleColon (':' :: c2 :: replaceDoubleColon rest2)
            = hasDoubleColon (c2 :: replaceDoubleColon rest2) := by
          rw [hasDoubleColon]
          intro xs _ hx
          injection hx with h1 _
          exact hc2 h1
        have hh2 : hasDoubleColon (c2 :: replaceDoubleColon rest2)
            = hasDoubleColon (replaceDoubleColon rest2) := by
          rw [hasDoubleColon]
          intro xs hcc _
          exact hc2 hcc
        rw [hh, hh2]
        have h2 : hasTripleColon (':' :: c2 :: rest2) = hasTripleColon (c2 :: rest2) := by
          rw [hasTripleColon]
          intro xs _ hx
          injection hx with h3 _
          exact hc2 h3
        rw [h2] at h
        have hgoal := ih h
        rw [hr2] at hgoal
        rw [hh2] at hgoal
        exact hgoal
    · have hh : hasDoubleColon (c :: replaceDoubleColon rest)
          = hasDoubleColon (replaceDoubleColon rest) := by
        rw [hasDoubleColon]
        intro xs hcc _
        exact hc hcc
      rw [hh]
      have h2 : hasTripleColon (c :: rest) = hasTripleColon rest := by
        rw [hasTripleColon]
        intro xs hcc _
        exact hc hcc
      rw [h2] at h
      exact ih h
  | case3 => rfl

/-- C8 (amended): the single-pass replacement of `::` by `:` is not
idempotent in general; it is idempotent on every input containing no
three consecutive colons, where one pass already removes every `::`
occurrence. -/
theorem replace_double_colon_idempotent_no_triple (l : List Char)
    (h : hasTripleColon l = false) :
    replaceDoubleColon (replaceDoubleColon l) = replaceDoubleColon l :=
  replace_id_of_no_double (replaceDoubleColon l) (replace_no_double_of_no_triple l h)

/-- Witness for C8's amended statement on a concrete triple-colon-free
text. -/
theorem replace_double_colon_idempotent_no_triple_witness :
    hasTripleColon ['p', ':', ':', 'a'] = false
  ∧ replaceDoubleColon (replaceDoubleColon ['p', ':', ':', 'a'])
      = replaceDoubleColon ['p', ':', ':', 'a'] :=
  ⟨by decide, replace_double_colon_idempotent_no_triple ['p', ':', ':', 'a'] (by decide)⟩

/-- The activation flow of `StackEnv.write` (lines 172-218): after
`ev.activate(env)` the named-override config adds, the re-merge loop, and
the transactional manifest write run with no try/finally; `ev.deactivate`
is the last statement before returning.  The booleans are oracles for
whether each stage raises; the result records whether the process is left
with the environment still activated, alongside the outcome. -/
def stackEnvActivationFlow (addRaises remergeRaises txnRaises : Bool) :
    Bool × Except String Unit :=
  if addRaises then (true, Except.error "config add raised")
  else if remergeRaises then (true, Except.error "re-merge raised")
  else if txnRaises then (true, Except.error "write transaction raised")
  else (false, Except.ok ())

/-- C10: `ev.deactivate()` is reached exactly on the fully successful
path — whenever any stage after activation raises, the flow ends with the
environment still activated. -/
theorem stackEnv_write_activation_flow (a r t : Bool) :
    (stackEnvActivationFlow a r t).2 = Except.ok ()
      ↔ (stackEnvActivationFlow a r t).1 = false := by
  cases a <;> cases r <;> cases t <;> simp [stackEnvActivationFlow]
